import Mathlib

/-!
Verification of the FIT-to-BigQuery ETL pipeline against its
natural-language specification.

The Python sources are shallowly embedded below.  External collaborators
(the BigQuery wire protocol, the Garmin binary decoder, `hashlib`,
`datetime.strptime`, the filesystem) are modelled as explicit parameters
or oracles; everything the repository itself computes is translated
directly from the corresponding Python function.
-/

namespace ETL

/-! ## `fit_parser.semicircles_to_degrees`

`semicircles * (180.0 / 2**31)`.  The double-precision computation is
exact for every 32-bit semicircle value (the factor is 45 * 2^-29, a
6-bit mantissa, so products with |raw| < 2^47 are representable), so the
function is embedded over the rationals. -/

def semicircles_to_degrees : Option ℤ → Option ℚ
  | none => none
  | some s => some ((s : ℚ) * (180 / 2 ^ 31))

/-! ## Python `or` coalescing (`fit_parser._extract_session_data`)

`data.get(a) or data.get(b)` evaluates to the first *truthy* operand:
`None` and numeric zero are falsy, so the right operand is returned
whenever the left is absent or zero. -/

def pyTruthy : Option ℚ → Bool
  | none => false
  | some x => x != 0

def pyOr (a b : Option ℚ) : Option ℚ :=
  if pyTruthy a then a else b

/-- The decoded first `session_mesgs` entry: only the fields with both a
base and an `enhanced_` variant are relevant to the coalescing logic;
the remaining session fields are copied verbatim by the source. -/
structure SessionMesg where
  avg_speed : Option ℚ
  enhanced_avg_speed : Option ℚ
  max_speed : Option ℚ
  enhanced_max_speed : Option ℚ
  min_altitude : Option ℚ
  enhanced_min_altitude : Option ℚ
  avg_altitude : Option ℚ
  enhanced_avg_altitude : Option ℚ
  max_altitude : Option ℚ
  enhanced_max_altitude : Option ℚ
  deriving Repr, DecidableEq

/-- The coalesced aggregate fields written into `session_data` by
`FITParser._extract_session_data` (lines 129-154 of `fit_parser.py`). -/
structure SessionAggregates where
  avg_speed : Option ℚ
  max_speed : Option ℚ
  min_altitude : Option ℚ
  avg_altitude : Option ℚ
  max_altitude : Option ℚ
  deriving Repr, DecidableEq

def extract_session_aggregates (data : SessionMesg) : SessionAggregates where
  avg_speed := pyOr data.avg_speed data.enhanced_avg_speed
  max_speed := pyOr data.max_speed data.enhanced_max_speed
  min_altitude := pyOr data.min_altitude data.enhanced_min_altitude
  avg_altitude := pyOr data.avg_altitude data.enhanced_avg_altitude
  max_altitude := pyOr data.max_altitude data.enhanced_max_altitude

/-! ## `bigquery_client.BigQueryClient.ensure_table_exists` (existing-table branch)

`current_fields = {f.name for f in table.schema}`; every declared field
whose name is not in that set becomes a `SchemaField` with mode
defaulting to `NULLABLE`; `updated_schema = list(table.schema) + new_fields`. -/

structure BQField where
  name : String
  type : String
  mode : String
  deriving Repr, DecidableEq

/-- One entry of a declared schema list (`config.SESSIONS_SCHEMA` etc.):
a dict with `name`, `type` and an optional `mode` read via
`field.get('mode', 'NULLABLE')`. -/
structure SchemaDecl where
  name : String
  type : String
  mode : Option String
  deriving Repr, DecidableEq

def SchemaDecl.toField (d : SchemaDecl) : BQField :=
  ⟨d.name, d.type, d.mode.getD "NULLABLE"⟩

def reconcile_schema (live : List BQField) (schema : List SchemaDecl) :
    List BQField :=
  let current_fields := live.map BQField.name
  let new_fields :=
    (schema.filter (fun f => !current_fields.contains f.name)).map
      SchemaDecl.toField
  live ++ new_fields

/-! ## `hash_manager.get_processed_hashes` / `find_unprocessed_files`

The table store is modelled as the optional row contents of the two
dedup-relevant tables; `none` means the table does not exist, in which
case the query raises the `Not found: Table` error that the source maps
to the empty set. -/

structure HashStore where
  sessions : Option (List String)
  metrics : Option (List String)
  deriving Repr, DecidableEq

def get_processed_hashes (st : HashStore) : List String :=
  match st.sessions with
  | some rows => rows
  | none => []

/-- A candidate staged file: its path and the SHA-256 digest of its
bytes (`generate_file_hash` folds `hashlib.sha256`, an external
capability, so the digest is carried as data). -/
structure StagedFile where
  path : String
  digest : String
  deriving Repr, DecidableEq

def find_unprocessed_files (files : List StagedFile) (st : HashStore) :
    List StagedFile :=
  let processed_hashes := get_processed_hashes st
  files.filter (fun f => !processed_hashes.contains f.digest)

/-- Modelled from the spec (§3 ProcessedHashSet, §4.4 Dedup Gate), for
comparison with `get_processed_hashes`: "the union of digests already
present across all destination tables that participate in dedup
(summary and metric tables)". -/
def specProcessedHashSet (st : HashStore) : List String :=
  (st.sessions.getD []) ++ (st.metrics.getD [])

/-! ## `archive_extractor.extract_archives` — suffix recognition

The scan is `input_dir.rglob(ext)` for
`ext in ['*.zip','*.tar','*.tar.gz','*.tgz','*.tar.bz2','*.tbz2','*.tar.xz','*.txz']`
(line 41).  An fnmatch pattern `*.X` matches a filename iff the name
ends with `.X` (`*` matches any, possibly empty, run of characters). -/

def archive_glob_suffixes : List String :=
  [".zip", ".tar", ".tar.gz", ".tgz", ".tar.bz2", ".tbz2", ".tar.xz", ".txz"]

def matchesArchiveGlob (name : String) : Bool :=
  archive_glob_suffixes.any (fun suf => suf.data.isSuffixOf name.data)

def lowerStr (s : String) : String :=
  ⟨s.data.map Char.toLower⟩

/-- Python `PurePath.suffix`: with `i = name.rfind('.')`, the result is
`name[i:]` when `0 < i < len(name) - 1` and `''` otherwise. -/
def pySuffix (name : String) : String :=
  match name.data.reverse.findIdx? (· == '.') with
  | none => ""
  | some j =>
      if 0 < name.data.length - 1 - j ∧
          name.data.length - 1 - j < name.data.length - 1 then
        ⟨name.data.drop (name.data.length - 1 - j)⟩
      else ""

/-- Python `PurePath.stem`: the name with `pySuffix` removed. -/
def pyStem (name : String) : String :=
  let l := name.data
  ⟨l.take (l.length - (pySuffix name).data.length)⟩

/-- The branch guard on line 67 of `archive_extractor.py`:
`archive_path.suffix.lower() == '.gz' and not
archive_path.name.lower().endswith('.tar.gz')`. -/
def isBareGzip (name : String) : Bool :=
  lowerStr (pySuffix name) == ".gz" &&
    !(".tar.gz".data.isSuffixOf (lowerStr name).data)

/-! ## `archive_extractor.extract_archives` — expansion loop

Archives are identified by an id; the external unpack capability is an
oracle `behavior` mapping an archive to `some children` (extraction
succeeds and reveals the listed nested archives in the staging tree) or
`none` (extraction raises).  Filesystem moves are modelled as reliable;
`staging` holds exactly the archive files the recursive scan would
find. -/

structure ExtractState where
  staging : List ℕ
  processedArchives : List ℕ
  failedArchives : List ℕ
  deriving Repr, DecidableEq

/-- The `for archive_path in archives` body (lines 55-104): a successful
extraction appends the revealed children to the staging tree and moves
the archive to `processed/archives`, counting it; a failed one moves it
to `failed/archives` uncounted. -/
def handle_archive (behavior : ℕ → Option (List ℕ)) (acc : ExtractState × ℕ)
    (a : ℕ) : ExtractState × ℕ :=
  let (st, count) := acc
  match behavior a with
  | some children =>
      (⟨st.staging ++ children, st.processedArchives ++ [a],
        st.failedArchives⟩, count + 1)
  | none =>
      (⟨st.staging, st.processedArchives, st.failedArchives ++ [a]⟩, count)

/-- One iteration of the `while` loop: the scan snapshot is the current
staging contents, all of which are handled and leave the staging tree. -/
def run_iteration (behavior : ℕ → Option (List ℕ)) (st : ExtractState) :
    ExtractState × ℕ :=
  st.staging.foldl (handle_archive behavior)
    (⟨[], st.processedArchives, st.failedArchives⟩, 0)

def max_iterations : ℕ := 10

/-- The `while iteration < max_iterations` loop (lines 37-111), with
`remaining = max_iterations - iteration`; returns the final state and
the number of completed iterations. -/
def extract_loop (behavior : ℕ → Option (List ℕ)) :
    ℕ → ExtractState → ℕ → ExtractState × ℕ
  | 0, st, iters => (st, iters)
  | remaining + 1, st, iters =>
      if st.staging.isEmpty then (st, iters)
      else
        let (st', count) := run_iteration behavior st
        if count = 0 then (st', iters + 1)
        else extract_loop behavior remaining st' (iters + 1)

/-- `extract_archives`: the loop from a fresh iteration counter, plus
the final `iteration >= max_iterations` warning flag (line 113). -/
def extract_archives (behavior : ℕ → Option (List ℕ)) (st : ExtractState) :
    ExtractState × ℕ × Bool :=
  let (st', iters) := extract_loop behavior max_iterations st 0
  (st', iters, decide (max_iterations ≤ iters))

/-! ## `bigquery_client.upload_session_and_records` and the per-file loop

The streaming-insert capability is external; a call's outcome is an
oracle: `.ok` appends every row, `.fail p` raises after the rows in `p`
(the sub-batches that did succeed) were appended. -/

inductive InsOutcome (α : Type) where
  | ok
  | fail (partialRows : List α)
  deriving Repr

structure Store (α : Type) where
  sessions : List α
  details : List α
  deriving Repr, DecidableEq

def insert_rows_batch {α : Type} (o : InsOutcome α) (table : List α)
    (rows : List α) : List α × Bool :=
  match o with
  | .ok => (table ++ rows, true)
  | .fail p => (table ++ p, false)

/-- Observable insert events, in the order the source issues them. -/
inductive UploadEvent (α : Type) where
  | insertDetails (rows : List α)
  | insertSession (row : α)
  deriving Repr

/-- `upload_session_and_records` (lines 174-204): details first, then
the single session row; an exception anywhere propagates (returned
success flag `false`). -/
def upload_session_and_records {α : Type} (dOut sOut : InsOutcome α)
    (st : Store α) (session_data : α) (records_data : List α) :
    Store α × Bool × List (UploadEvent α) :=
  let (d', dok) := insert_rows_batch dOut st.details records_data
  if dok then
    let (s', sok) := insert_rows_batch sOut st.sessions [session_data]
    (⟨s', d'⟩, sok, [.insertDetails records_data, .insertSession session_data])
  else
    (⟨st.sessions, d'⟩, false, [.insertDetails records_data])

/-- `etl_pipeline.process_file` from the point the parser has produced
`(session_data, records_data)`: an empty record list is a failure
without any upload; otherwise the outcome is the upload's. -/
def process_file {α : Type} (dOut sOut : InsOutcome α) (st : Store α)
    (session_data : α) (records_data : List α) :
    Store α × Bool × List (UploadEvent α) :=
  if records_data.isEmpty then (st, false, [])
  else upload_session_and_records dOut sOut st session_data records_data

inductive Dest where
  | processed
  | failed
  deriving Repr, DecidableEq

/-- One unprocessed file together with its parsed rows and the insert
outcomes its upload will meet. -/
structure FileJob (α : Type) where
  file : StagedFile
  session_data : α
  records_data : List α
  dOut : InsOutcome α
  sOut : InsOutcome α

/-- The per-file loop of `run_etl_pipeline` (lines 203-214): success
increments `success_count` and routes to `processed/`, failure
increments `failed_count` and routes to `failed/`. -/
def run_files {α : Type} (jobs : List (FileJob α)) (st : Store α) :
    Store α × ℕ × ℕ × List (StagedFile × Dest) :=
  jobs.foldl
    (fun (acc : Store α × ℕ × ℕ × List (StagedFile × Dest)) job =>
      let (st, succ, fails, routes) := acc
      let (st', ok, _) :=
        process_file job.dOut job.sOut st job.session_data job.records_data
      if ok then (st', succ + 1, fails, routes ++ [(job.file, .processed)])
      else (st', succ, fails + 1, routes ++ [(job.file, .failed)]))
    (st, 0, 0, [])

/-! ## `fit_parser.FITParser._extract_records_data`

The decoded `record_mesgs` entries.  Timestamps are `datetime` values
from the external decoder; they are kept abstract (`τ`) together with
their `isoformat` rendering.  A `datetime` object is always truthy, so
`if not timestamp: continue` is the `none` check. -/

structure RecordMesg (τ : Type) where
  timestamp : Option τ
  position_lat : Option ℤ
  position_long : Option ℤ
  gps_accuracy : Option ℤ
  altitude : Option ℚ
  enhanced_altitude : Option ℚ
  grade : Option ℚ
  distance : Option ℚ
  heart_rate : Option ℤ
  cadence : Option ℤ
  power : Option ℤ
  speed : Option ℚ
  enhanced_speed : Option ℚ
  temperature : Option ℤ
  calories : Option ℤ
  battery_soc : Option ℚ

structure DetailRecord (τ : Type) where
  session_id : String
  file_hash : String
  record_id : String
  timestamp : τ
  position_lat : Option ℚ
  position_long : Option ℚ
  gps_accuracy : Option ℤ
  altitude : Option ℚ
  enhanced_altitude : Option ℚ
  grade : Option ℚ
  distance : Option ℚ
  heart_rate : Option ℤ
  cadence : Option ℤ
  power : Option ℤ
  speed : Option ℚ
  enhanced_speed : Option ℚ
  temperature : Option ℤ
  calories : Option ℤ
  battery_soc : Option ℚ

/-- The loop body of `_extract_records_data` (lines 184-231):
`record_sequence` advances only when a record is appended, and a
message without a timestamp is skipped. -/
def extract_records_go {τ : Type} (iso : τ → String)
    (file_hash session_id : String) :
    List (RecordMesg τ) → ℕ → List (DetailRecord τ)
  | [], _ => []
  | data :: rest, record_sequence =>
      match data.timestamp with
      | none => extract_records_go iso file_hash session_id rest record_sequence
      | some timestamp =>
          { session_id := session_id
            file_hash := file_hash
            record_id :=
              file_hash ++ "_" ++ iso timestamp ++ "_" ++ toString record_sequence
            timestamp := timestamp
            position_lat := semicircles_to_degrees data.position_lat
            position_long := semicircles_to_degrees data.position_long
            gps_accuracy := data.gps_accuracy
            altitude := data.altitude
            enhanced_altitude := data.enhanced_altitude
            grade := data.grade
            distance := data.distance
            heart_rate := data.heart_rate
            cadence := data.cadence
            power := data.power
            speed := data.speed
            enhanced_speed := data.enhanced_speed
            temperature := data.temperature
            calories := data.calories
            battery_soc := data.battery_soc } ::
            extract_records_go iso file_hash session_id rest (record_sequence + 1)

def extract_records_data {τ : Type} (iso : τ → String)
    (file_hash session_id : String) (record_mesgs : List (RecordMesg τ)) :
    List (DetailRecord τ) :=
  extract_records_go iso file_hash session_id record_mesgs 0

/-! ## `csv_parser` — Python string and number primitives

These model the CPython behaviour for the ASCII inputs the pipeline
handles (`str.lower`, `str.strip`, `str.isalnum`, and the `int`/`float`
constructors on decimal literals with optional `_` digit grouping;
`float` specials such as `inf`/`nan` are not modelled — they contain no
`'.'` so the source never routes them to `float`). -/

def pyStripChars (l : List Char) : List Char :=
  ((l.dropWhile Char.isWhitespace).reverse.dropWhile Char.isWhitespace).reverse

def pyStrip (s : String) : String :=
  ⟨pyStripChars s.data⟩

/-- `clean_column_name`: `name.lower().strip()`, spaces to underscores,
then keep only alphanumerics and underscores (`csv_parser.py` 9-15). -/
def clean_column_name (name : String) : String :=
  let clean := pyStripChars (name.data.map Char.toLower)
  let clean := clean.map (fun c => if c == ' ' then '_' else c)
  ⟨clean.filter (fun c => c.isAlphanum || c == '_')⟩

/-- A digit run with optional single `_` separators between digits. -/
def intBody (l : List Char) : Bool :=
  !l.isEmpty &&
    l.head?.all Char.isDigit && l.getLast?.all Char.isDigit &&
    l.all (fun c => c.isDigit || c == '_') &&
    (l.zip l.tail).all (fun p => !(p.1 == '_' && p.2 == '_'))

def digitsVal (l : List Char) : ℕ :=
  l.foldl (fun acc c => acc * 10 + (c.toNat - '0'.toNat)) 0

def pySign (l : List Char) : ℤ × List Char :=
  match l with
  | '+' :: rest => (1, rest)
  | '-' :: rest => (-1, rest)
  | _ => (1, l)

/-- Python `int(s)` on decimal literals. -/
def pyInt (s : String) : Option ℤ :=
  let (sign, body) := pySign (pyStripChars s.data)
  if intBody body then some (sign * digitsVal (body.filter Char.isDigit))
  else none

/-- Split a list at the first occurrence of `sep`, returning the parts
before and after it. -/
def splitFirst (sep : List Char) : List Char → Option (List Char × List Char)
  | [] => none
  | c :: rest =>
      if sep.isPrefixOf (c :: rest) then some ([], (c :: rest).drop sep.length)
      else
        match splitFirst sep rest with
        | some (before, after) => some (c :: before, after)
        | none => none

def splitAllFuel (sep : List Char) : ℕ → List Char → List (List Char)
  | 0, l => [l]
  | fuel + 1, l =>
      match splitFirst sep l with
      | none => [l]
      | some (before, after) => before :: splitAllFuel sep fuel after

/-- Python `s.split(sep)` for a non-empty separator. -/
def pySplit (sep s : String) : List String :=
  (splitAllFuel sep.data (s.data.length + 1) s.data).map (⟨·⟩)

def containsSub (sub s : String) : Bool :=
  (splitFirst sub.data s.data).isSome

/-- Python `float(s)` on decimal literals (optional sign, optional
integer and fraction digit runs around a dot, optional exponent). -/
def pyFloat (s : String) : Option ℚ :=
  let (sign, body) := pySign (pyStripChars s.data)
  let (mant, expv) :=
    match splitFirst ['e'] body with
    | some (m, e) => (m, some e)
    | none =>
        match splitFirst ['E'] body with
        | some (m, e) => (m, some e)
        | none => (body, none)
  let expOk : Bool :=
    match expv with
    | none => true
    | some e => intBody (pySign e).2
  let expVal : ℤ :=
    match expv with
    | none => 0
    | some e => (pySign e).1 * digitsVal ((pySign e).2.filter Char.isDigit)
  let (ipart, fpart) :=
    match splitFirst ['.'] mant with
    | some (i, f) => (i, some f)
    | none => (mant, none)
  let ipartOk := ipart.isEmpty || intBody ipart
  let fpartOk :=
    match fpart with
    | none => true
    | some f => f.isEmpty || intBody f
  let fdigits := (fpart.getD []).filter Char.isDigit
  let idigits := ipart.filter Char.isDigit
  if ipartOk && fpartOk && expOk && !(idigits.isEmpty && fdigits.isEmpty) then
    some ((sign : ℚ) *
      ((digitsVal idigits +
          (digitsVal fdigits : ℚ) / (10 : ℚ) ^ fdigits.length) *
        (10 : ℚ) ^ expVal))
  else none

/-! ## `csv_parser.parse_metrics_csv`

A CSV row (via `csv.DictReader`) contributes its `Timestamp`, `Type`
and `Value` columns.  `datetime` is external: `DT` is the abstract
datetime type, `strptime` the partial parser for
`"%Y-%m-%d %H:%M:%S"` (raising `ValueError` = `none`), and
`created_at` the `datetime.utcnow()` of the run.  A record is the
Python dict: an insertion-ordered association list over all its keys,
base and metric alike. -/

structure CsvRow where
  timestamp : String
  type : String
  value : String
  deriving Repr, DecidableEq

inductive PyVal (DT : Type) where
  | s (v : String)
  | dt (d : DT)
  | i (n : ℤ)
  | f (q : ℚ)

/-- Python dict assignment `record[k] = v`: update in place when the
key exists, append otherwise. -/
def dictSet {DT : Type} (record : List (String × PyVal DT)) (k : String)
    (v : PyVal DT) : List (String × PyVal DT) :=
  if record.any (·.1 == k) then
    record.map (fun p => if p.1 == k then (k, v) else p)
  else record ++ [(k, v)]

/-- `ts_dt`: the parsed timestamp, or the raw string when the format
varies (lines 56-59). -/
def tsField {DT : Type} (strptime : String → Option DT) (ts_str : String) :
    PyVal DT :=
  match strptime ts_str with
  | some d => .dt d
  | none => .s ts_str

/-- The value coercion (lines 88-95 and 105-111): `float` when a `'.'`
is present else `int`, falling back to the stripped text on
`ValueError`. -/
def coerceValue {DT : Type} (val : String) : PyVal DT :=
  if val.data.contains '.' then
    match pyFloat val with
    | some q => .f q
    | none => .s (pyStrip val)
  else
    match pyInt val with
    | some n => .i n
    | none => .s (pyStrip val)

/-- `allowed_fields and col_name not in allowed_fields` (lines 82 and
100): `None` and the empty set are falsy, so nothing is dropped then. -/
def dropField (allowed_fields : Option (List String)) (col_name : String) :
    Bool :=
  match allowed_fields with
  | none => false
  | some s => !s.isEmpty && !s.contains col_name

/-- The composite-value branch (lines 74-95): split on `" / "`, then
each part containing `" : "` is split once into key and value. -/
def applyParts {DT : Type} (drop : String → Bool) (clean_base_type : String)
    (parts : List String) (record : List (String × PyVal DT)) :
    List (String × PyVal DT) :=
  parts.foldl
    (fun record part =>
      match splitFirst " : ".data part.data with
      | none => record
      | some (key, val) =>
          let col_name := clean_base_type ++ "_" ++ clean_column_name ⟨key⟩
          if drop col_name then record
          else dictSet record col_name (coerceValue ⟨val⟩))
    record

/-- The per-row body of the reader loop (lines 47-111), acting on the
`records_by_timestamp` ordered dict. -/
def processRow {DT : Type} (strptime : String → Option DT) (created_at : DT)
    (drop : String → Bool) (file_hash filename : String)
    (records_by_timestamp : List (String × List (String × PyVal DT)))
    (row : CsvRow) : List (String × List (String × PyVal DT)) :=
  let ts_str := row.timestamp
  let metric_type := row.type
  let value_str := row.value
  if ts_str == "" || metric_type == "" then records_by_timestamp
  else
    let m :=
      if records_by_timestamp.any (·.1 == ts_str) then records_by_timestamp
      else
        records_by_timestamp ++
          [(ts_str,
            [("file_hash", .s file_hash), ("filename", .s filename),
             ("timestamp", tsField strptime ts_str),
             ("created_at", .dt created_at)])]
    let clean_base_type := clean_column_name metric_type
    let update : List (String × PyVal DT) → List (String × PyVal DT) :=
      fun record =>
        if containsSub " / " value_str then
          applyParts drop clean_base_type (pySplit " / " value_str) record
        else
          if drop clean_base_type then record
          else dictSet record clean_base_type (coerceValue value_str)
    m.map (fun p => if p.1 == ts_str then (p.1, update p.2) else p)

def parseRows {DT : Type} (strptime : String → Option DT) (created_at : DT)
    (drop : String → Bool) (rows : List CsvRow) (file_hash filename : String) :
    List (List (String × PyVal DT)) :=
  (rows.foldl (processRow strptime created_at drop file_hash filename) []).map
    (·.2)

/-- `parse_metrics_csv(file_path, file_hash, allowed_fields)` over the
already-read rows of the file. -/
def parse_metrics_csv {DT : Type} (strptime : String → Option DT)
    (created_at : DT) (rows : List CsvRow) (file_hash filename : String)
    (allowed_fields : Option (List String)) :
    List (List (String × PyVal DT)) :=
  parseRows strptime created_at (dropField allowed_fields) rows file_hash
    filename

/-! ## Concrete inputs used by counterexamples and witnesses -/

/-- A decoded session message carrying both the base and the enhanced
average speed, with distinct values. -/
def sessionMesgBoth : SessionMesg :=
  { avg_speed := some 1, enhanced_avg_speed := some 2
    max_speed := none, enhanced_max_speed := none
    min_altitude := none, enhanced_min_altitude := none
    avg_altitude := none, enhanced_avg_altitude := none
    max_altitude := none, enhanced_max_altitude := none }

def mkRecordMesg (t : Option String) : RecordMesg String :=
  { timestamp := t
    position_lat := none, position_long := none, gps_accuracy := none
    altitude := none, enhanced_altitude := none, grade := none
    distance := none, heart_rate := none, cadence := none, power := none
    speed := none, enhanced_speed := none, temperature := none
    calories := none, battery_soc := none }

/-- Three decoded record messages, the middle one lacking a timestamp. -/
def sampleRecordMesgs : List (RecordMesg String) :=
  [mkRecordMesg (some "2024-01-01T00:00:00"), mkRecordMesg none,
   mkRecordMesg (some "2024-01-01T00:00:01")]

/-- The second record the parser extracts from `sampleRecordMesgs`. -/
def sampleOutputRecord : DetailRecord String :=
  { session_id := "s", file_hash := "d"
    record_id := "d" ++ "_" ++ "2024-01-01T00:00:01" ++ "_" ++ toString 1
    timestamp := "2024-01-01T00:00:01"
    position_lat := none, position_long := none, gps_accuracy := none
    altitude := none, enhanced_altitude := none, grade := none
    distance := none, heart_rate := none, cadence := none, power := none
    speed := none, enhanced_speed := none, temperature := none
    calories := none, battery_soc := none }

end ETL

namespace ETL

/-! ## Claim theorems -/

/-- C7: GPS coordinate conversion is the linear map
`degrees = raw * (180 / 2^31)` for every integer raw input, a raw value
of `2147483648` converts to exactly `180`, and a missing (`None`) raw
value maps to a missing output, never a default of zero. -/
theorem C7_gps_conversion :
    (∀ raw : ℤ, ∃ q : ℚ, semicircles_to_degrees (some raw) = some q ∧
      q * 2 ^ 31 = (raw : ℚ) * 180) ∧
    semicircles_to_degrees (some 2147483648) = some 180 ∧
    semicircles_to_degrees none = none := by
  refine ⟨fun raw => ⟨(raw : ℚ) * (180 / 2 ^ 31), rfl, ?_⟩, ?_, rfl⟩
  · field_simp
  · show some ((2147483648 : ℚ) * (180 / 2 ^ 31)) = some 180
    norm_num

/-- C3 counterexample: a session message carrying `avg_speed = 1` and
`enhanced_avg_speed = 2` yields the base value `1`, not the enhanced
value — the normalizer does not prefer the enhanced variant. -/
theorem C3_enhanced_preference_counterexample :
    sessionMesgBoth.avg_speed = some 1 ∧
    sessionMesgBoth.enhanced_avg_speed = some 2 ∧
    (extract_session_aggregates sessionMesgBoth).avg_speed = some 1 ∧
    (extract_session_aggregates sessionMesgBoth).avg_speed ≠
      sessionMesgBoth.enhanced_avg_speed := by
  refine ⟨rfl, rfl, rfl, ?_⟩
  intro h
  simp [extract_session_aggregates, sessionMesgBoth, pyOr, pyTruthy] at h

/-- C3 (amended): for every aggregate session field with both a base
and an enhanced variant, the normalizer selects the *base* variant when
it is truthy (present and non-zero), and falls back to the enhanced
variant otherwise — Python `or` is first-truthy selection preferring
the base operand. -/
theorem C3_base_preference_amended :
    ∀ data : SessionMesg,
      (extract_session_aggregates data).avg_speed =
        (if pyTruthy data.avg_speed then data.avg_speed
         else data.enhanced_avg_speed) ∧
      (extract_session_aggregates data).max_speed =
        (if pyTruthy data.max_speed then data.max_speed
         else data.enhanced_max_speed) ∧
      (extract_session_aggregates data).min_altitude =
        (if pyTruthy data.min_altitude then data.min_altitude
         else data.enhanced_min_altitude) ∧
      (extract_session_aggregates data).avg_altitude =
        (if pyTruthy data.avg_altitude then data.avg_altitude
         else data.enhanced_avg_altitude) ∧
      (extract_session_aggregates data).max_altitude =
        (if pyTruthy data.max_altitude then data.max_altitude
         else data.enhanced_max_altitude) :=
  fun _ => ⟨rfl, rfl, rfl, rfl, rfl⟩

/-- C4: reconciliation of an existing table is additive-only: every
pre-existing field is preserved in place with its name, type and mode
unchanged, exactly the declared fields whose names are missing from the
live field list are appended, and nothing else appears. -/
theorem C4_additive_schema_reconciliation :
    ∀ (live : List BQField) (schema : List SchemaDecl),
      live <+: reconcile_schema live schema ∧
      (reconcile_schema live schema).take live.length = live ∧
      (reconcile_schema live schema).drop live.length =
        (schema.filter
          (fun f => !(live.map BQField.name).contains f.name)).map
          SchemaDecl.toField ∧
      ∀ f ∈ reconcile_schema live schema,
        f ∈ live ∨ ∃ d ∈ schema,
          f = d.toField ∧ !(live.map BQField.name).contains d.name := by
  intro live schema
  refine ⟨⟨_, rfl⟩, List.take_left live _, ?_, ?_⟩
  · show (live ++ _).drop live.length = _
    rw [List.drop_left]
  · intro f hf
    rcases List.mem_append.1 hf with h | h
    · exact Or.inl h
    · rcases List.mem_map.1 h with ⟨d, hd, rfl⟩
      rcases List.mem_filter.1 hd with ⟨hds, hmiss⟩
      exact Or.inr ⟨d, hds, rfl, hmiss⟩

/-- Witness for C4 at a concrete table: the declared field `x`, missing
from the live schema, is appended and accounted for. -/
theorem C4_additive_schema_reconciliation_witness :
    (⟨"x", "FLOAT", "NULLABLE"⟩ : BQField) ∈ ([⟨"a", "STRING", "REQUIRED"⟩] : List BQField) ∨
      ∃ d ∈ ([⟨"a", "INTEGER", none⟩, ⟨"x", "FLOAT", some "NULLABLE"⟩] : List SchemaDecl),
        (⟨"x", "FLOAT", "NULLABLE"⟩ : BQField) = d.toField ∧
          !(([⟨"a", "STRING", "REQUIRED"⟩] : List BQField).map BQField.name).contains d.name :=
  (C4_additive_schema_reconciliation [⟨"a", "STRING", "REQUIRED"⟩]
      [⟨"a", "INTEGER", none⟩, ⟨"x", "FLOAT", some "NULLABLE"⟩]).2.2.2
    ⟨"x", "FLOAT", "NULLABLE"⟩ (by decide)

/-- C1 counterexample: with an empty sessions table and a metrics table
holding digest `d`, the digest is in the spec's union set, yet a
candidate file with digest `d` is still returned as unprocessed — the
gate does not query the metrics table. -/
theorem C1_dedup_union_counterexample :
    "d" ∈ specProcessedHashSet ⟨some [], some ["d"]⟩ ∧
    find_unprocessed_files [⟨"a.fit", "d"⟩] ⟨some [], some ["d"]⟩ =
      [⟨"a.fit", "d"⟩] := by
  constructor
  · simp [specProcessedHashSet]
  · rfl

/-- C1 (amended): the dedup gate's hash set is the set of digests
stored in the summary (sessions) table alone — the metrics table does
not participate; a missing table yields the empty set rather than an
error; and a candidate is included in the unprocessed result iff its
digest is absent from that sessions-table set. -/
theorem C1_dedup_gate_amended :
    (∀ m, get_processed_hashes ⟨none, m⟩ = []) ∧
    (∀ rows m, get_processed_hashes ⟨some rows, m⟩ = rows) ∧
    (∀ (files : List StagedFile) (st : HashStore) (f : StagedFile),
      f ∈ find_unprocessed_files files st ↔
        f ∈ files ∧ f.digest ∉ get_processed_hashes st) := by
  refine ⟨fun _ => rfl, fun _ _ => rfl, fun files st f => ?_⟩
  simp [find_unprocessed_files, List.mem_filter]

/-- Witness for C1 (amended) at a concrete store and candidate. -/
theorem C1_dedup_gate_amended_witness :
    (⟨"a.fit", "d"⟩ : StagedFile) ∈
        find_unprocessed_files [⟨"a.fit", "d"⟩] ⟨some [], some ["d"]⟩ ↔
      (⟨"a.fit", "d"⟩ : StagedFile) ∈ ([⟨"a.fit", "d"⟩] : List StagedFile) ∧
        "d" ∉ get_processed_hashes ⟨some [], some ["d"]⟩ :=
  C1_dedup_gate_amended.2.2 [⟨"a.fit", "d"⟩] ⟨some [], some ["d"]⟩
    ⟨"a.fit", "d"⟩

/-- Two suffixes of a list are comparable; if neither extends the
other, they cannot both occur. -/
lemma not_both_suffixes {L s₁ s₂ : List Char} (h₁ : s₁ <:+ L) (h₂ : s₂ <:+ L)
    (h : ¬s₁ <:+ s₂ ∧ ¬s₂ <:+ s₁) : False :=
  (List.suffix_or_suffix_of_suffix h₁ h₂).elim h.1 h.2

/-- A name satisfying the bare-gzip branch guard ends, lowercased, in
`.gz` but not in `.tar.gz`. -/
lemma isBareGzip_suffixes {name : String} (h : isBareGzip name = true) :
    ".gz".data <:+ name.data.map Char.toLower ∧
      ¬".tar.gz".data <:+ name.data.map Char.toLower := by
  unfold isBareGzip at h
  rw [Bool.and_eq_true] at h
  obtain ⟨hgz, htar⟩ := h
  constructor
  · unfold pySuffix at hgz
    rcases hfind : name.data.reverse.findIdx? (· == '.') with _ | j <;>
      rw [hfind] at hgz
    · have hgz0 : (lowerStr "" == ".gz") = true := hgz
      exact absurd hgz0 (by decide)
    · have hgz' : (lowerStr
          (if 0 < name.data.length - 1 - j ∧
              name.data.length - 1 - j < name.data.length - 1 then
            (⟨name.data.drop (name.data.length - 1 - j)⟩ : String)
          else "") == ".gz") = true := hgz
      split_ifs at hgz' with hcond
      · have hdata : (name.data.drop (name.data.length - 1 - j)).map
            Char.toLower = ".gz".data :=
          congrArg String.data ((beq_iff_eq).1 hgz')
        rw [← hdata]
        exact (List.drop_suffix _ _).map Char.toLower
      · exact absurd ((beq_iff_eq).1 hgz') (by decide)
  · intro hs
    rw [show name.data.map Char.toLower = (lowerStr name).data from rfl,
      ← List.isSuffixOf_iff_suffix] at hs
    rw [hs] at htar
    exact absurd htar (by decide)

/-- C6: the bare-gzip handling branch of the archive expander is
unreachable: the scan's glob suffix list contains no `*.gz` pattern, so
no filename satisfying the branch guard is ever discovered — in
particular `activity.fit.gz` is never found, although the guard and the
suffix-stripped output name (`activity.fit`) for it exist in the code. -/
theorem C6_bare_gzip_not_discovered :
    (∀ name : String, isBareGzip name = true → matchesArchiveGlob name = false) ∧
    isBareGzip "activity.fit.gz" = true ∧
    matchesArchiveGlob "activity.fit.gz" = false ∧
    pyStem "activity.fit.gz" = "activity.fit" := by
  refine ⟨?_, by decide, by decide, by decide⟩
  intro name h
  obtain ⟨hgz, htar⟩ := isBareGzip_suffixes h
  by_contra hmatch
  rw [Bool.not_eq_false] at hmatch
  unfold matchesArchiveGlob archive_glob_suffixes at hmatch
  obtain ⟨suf, hsuf, hmatches⟩ := List.any_eq_true.1 hmatch
  have hsufx : suf.data <:+ name.data :=
    List.isSuffixOf_iff_suffix.1 hmatches
  have hlow : suf.data.map Char.toLower <:+ name.data.map Char.toLower :=
    hsufx.map Char.toLower
  fin_cases hsuf
  · exact not_both_suffixes hgz hlow (by decide)
  · exact not_both_suffixes hgz hlow (by decide)
  · exact htar
      ((by decide : ".tar.gz".data.map Char.toLower = ".tar.gz".data) ▸ hlow)
  · exact not_both_suffixes hgz hlow (by decide)
  · exact not_both_suffixes hgz hlow (by decide)
  · exact not_both_suffixes hgz hlow (by decide)
  · exact not_both_suffixes hgz hlow (by decide)
  · exact not_both_suffixes hgz hlow (by decide)

/-- Witness for C6 at the concrete filename `activity.fit.gz`. -/
theorem C6_bare_gzip_not_discovered_witness :
    isBareGzip "activity.fit.gz" = true ∧
      matchesArchiveGlob "activity.fit.gz" = false :=
  ⟨by decide, C6_bare_gzip_not_discovered.1 "activity.fit.gz" (by decide)⟩

/-- Characterization of the per-iteration fold of the archive loop:
where each scanned archive lands, what the next scan will see, and how
many extractions succeeded. -/
lemma foldl_handle_spec (b : ℕ → Option (List ℕ)) (archives : List ℕ) :
    ∀ (st : ExtractState) (c : ℕ),
      (archives.foldl (handle_archive b) (st, c)).1.processedArchives =
        st.processedArchives ++ archives.filter (fun a => (b a).isSome) ∧
      (archives.foldl (handle_archive b) (st, c)).1.failedArchives =
        st.failedArchives ++ archives.filter (fun a => (b a).isNone) ∧
      (archives.foldl (handle_archive b) (st, c)).1.staging =
        st.staging ++ (archives.filterMap b).flatten ∧
      (archives.foldl (handle_archive b) (st, c)).2 =
        c + (archives.filter (fun a => (b a).isSome)).length := by
  induction archives with
  | nil => intro st c; simp
  | cons a rest ih =>
      intro st c
      rcases hba : b a with _ | children
      · obtain ⟨ih1, ih2, ih3, ih4⟩ :=
          ih ⟨st.staging, st.processedArchives, st.failedArchives ++ [a]⟩ c
        refine ⟨?_, ?_, ?_, ?_⟩ <;>
          simp only [List.foldl_cons, handle_archive, hba] <;>
          simp [ih1, ih2, ih3, ih4, hba, List.filter_cons, List.filterMap_cons]
      · obtain ⟨ih1, ih2, ih3, ih4⟩ :=
          ih ⟨st.staging ++ children, st.processedArchives ++ [a],
            st.failedArchives⟩ (c + 1)
        refine ⟨?_, ?_, ?_, ?_⟩ <;>
          simp only [List.foldl_cons, handle_archive, hba] <;>
          simp [ih1, ih2, ih3, ih4, hba, List.filter_cons,
            List.filterMap_cons]
        omega

lemma run_iteration_spec (b : ℕ → Option (List ℕ)) (st : ExtractState) :
    (run_iteration b st).1.processedArchives =
      st.processedArchives ++ st.staging.filter (fun a => (b a).isSome) ∧
    (run_iteration b st).1.failedArchives =
      st.failedArchives ++ st.staging.filter (fun a => (b a).isNone) ∧
    (run_iteration b st).1.staging = (st.staging.filterMap b).flatten ∧
    (run_iteration b st).2 =
      (st.staging.filter (fun a => (b a).isSome)).length := by
  have h := foldl_handle_spec b st.staging
    ⟨[], st.processedArchives, st.failedArchives⟩ 0
  simpa [run_iteration] using h

/-- An iteration that extracts zero archives leaves no archives in the
staging tree: every scanned archive failed, so nothing new appeared and
everything scanned was moved out. -/
lemma run_iteration_count_zero {b : ℕ → Option (List ℕ)} {st : ExtractState}
    (h : (run_iteration b st).2 = 0) : (run_iteration b st).1.staging = [] := by
  obtain ⟨-, -, h3, h4⟩ := run_iteration_spec b st
  rw [h4, List.length_eq_zero, List.filter_eq_nil_iff] at h
  have hfm : st.staging.filterMap b = [] := by
    rw [List.filterMap_eq_nil_iff]
    intro a ha
    have := h a ha
    simpa [Option.isNone_iff_eq_none] using this
  rw [h3, hfm]
  rfl

lemma extract_loop_iters_le (b : ℕ → Option (List ℕ)) :
    ∀ (r : ℕ) (st : ExtractState) (i : ℕ),
      (extract_loop b r st i).2 ≤ i + r := by
  intro r
  induction r with
  | zero => intro st i; simp [extract_loop]
  | succ r ih =>
      intro st i
      rw [extract_loop]
      by_cases he : st.staging.isEmpty
      · rw [if_pos he]
        omega
      · rw [if_neg he]
        rcases hri : run_iteration b st with ⟨st', count⟩
        dsimp only
        by_cases hc : count = 0
        · rw [if_pos hc]
          omega
        · rw [if_neg hc]
          have := ih st' (i + 1)
          omega

lemma extract_loop_staging_empty (b : ℕ → Option (List ℕ)) :
    ∀ (r : ℕ) (st : ExtractState) (i : ℕ),
      (extract_loop b r st i).2 < i + r →
      (extract_loop b r st i).1.staging = [] := by
  intro r
  induction r with
  | zero => intro st i h; simp [extract_loop] at h
  | succ r ih =>
      intro st i h
      rw [extract_loop] at h ⊢
      by_cases he : st.staging.isEmpty
      · rw [if_pos he] at h ⊢
        exact List.isEmpty_iff.1 he
      · rw [if_neg he] at h ⊢
        rcases hri : run_iteration b st with ⟨st', count⟩
        rw [hri] at h
        dsimp only at h ⊢
        by_cases hc : count = 0
        · rw [if_pos hc] at h ⊢
          have hz : (run_iteration b st).2 = 0 := by rw [hri]; exact hc
          have := run_iteration_count_zero hz
          rwa [hri] at this
        · rw [if_neg hc] at h ⊢
          exact ih st' (i + 1) (by omega)

/-- C5: the expansion loop executes at most `max_iterations` iterations;
the non-fatal warning fires exactly when the ceiling is reached; if the
ceiling is not reached, the loop has run until no archives remain in
the staging tree (an iteration that extracts zero archives also leaves
none behind); and within an iteration every scanned archive is routed
to exactly one of `processed/archives` and `failed/archives`, according
to whether its extraction succeeded. -/
theorem C5_archive_expansion_termination :
    ∀ (behavior : ℕ → Option (List ℕ)) (st : ExtractState),
      (extract_archives behavior st).2.1 ≤ max_iterations ∧
      ((extract_archives behavior st).2.2 = true ↔
        (extract_archives behavior st).2.1 = max_iterations) ∧
      ((extract_archives behavior st).2.2 = false →
        (extract_archives behavior st).1.staging = []) ∧
      (∀ s : ExtractState,
        (run_iteration behavior s).1.processedArchives =
          s.processedArchives ++
            s.staging.filter (fun a => (behavior a).isSome) ∧
        (run_iteration behavior s).1.failedArchives =
          s.failedArchives ++
            s.staging.filter (fun a => (behavior a).isNone) ∧
        (s.staging.filter (fun a => (behavior a).isSome) ++
            s.staging.filter (fun a => (behavior a).isNone)).Perm
          s.staging) := by
  intro b st
  rcases hres : extract_loop b max_iterations st 0 with ⟨st', iters⟩
  have hle : iters ≤ max_iterations := by
    have := extract_loop_iters_le b max_iterations st 0
    rw [hres] at this
    simpa using this
  have harch : extract_archives b st = (st', iters, decide (max_iterations ≤ iters)) := by
    simp [extract_archives, hres]
  refine ⟨?_, ?_, ?_, ?_⟩
  · rw [harch]; exact hle
  · rw [harch]
    simp only [decide_eq_true_eq]
    constructor
    · intro h; omega
    · intro h; omega
  · rw [harch]
    intro h
    simp only [decide_eq_false_iff_not, not_le] at h
    have := extract_loop_staging_empty b max_iterations st 0 (by rw [hres]; simpa using h)
    rw [hres] at this
    exact this
  · intro s
    obtain ⟨h1, h2, -, -⟩ := run_iteration_spec b s
    refine ⟨h1, h2, ?_⟩
    have hfun : (fun a => (b a).isNone) = fun a => !(b a).isSome := by
      funext a; cases b a <;> rfl
    rw [hfun]
    exact List.filter_append_perm _ _

/-- Witness for C5 at a concrete behavior (one archive whose extraction
fails): the run warns nothing and ends with an empty staging tree. -/
theorem C5_archive_expansion_termination_witness :
    (extract_archives (fun _ => none) ⟨[5], [], []⟩).2.2 = false ∧
      (extract_archives (fun _ => none) ⟨[5], [], []⟩).1.staging = [] :=
  ⟨by decide,
    (C5_archive_expansion_termination (fun _ => none) ⟨[5], [], []⟩).2.2.1
      (by decide)⟩

/-- C2: the per-file upload inserts all detail rows and only then the
single summary row (the event trace shows the order); a detail-insert
failure leaves the sessions table untouched and propagates; a
summary-insert failure after the details succeeded leaves the detail
rows persisted, and the pipeline then routes the file to the failed
directory, recording zero successes and one failure for it. -/
theorem C2_upload_partial_failure :
    ∀ (α : Type) (st : Store α) (session_data : α) (records_data : List α)
      (p q : List α) (sOut : InsOutcome α) (file : StagedFile),
      upload_session_and_records (.fail p) sOut st session_data records_data =
        (⟨st.sessions, st.details ++ p⟩, false,
          [.insertDetails records_data]) ∧
      upload_session_and_records .ok (.fail q) st session_data records_data =
        (⟨st.sessions ++ q, st.details ++ records_data⟩, false,
          [.insertDetails records_data, .insertSession session_data]) ∧
      upload_session_and_records .ok .ok st session_data records_data =
        (⟨st.sessions ++ [session_data], st.details ++ records_data⟩, true,
          [.insertDetails records_data, .insertSession session_data]) ∧
      (records_data ≠ [] →
        run_files [⟨file, session_data, records_data, .ok, .fail q⟩] st =
          (⟨st.sessions ++ q, st.details ++ records_data⟩, 0, 1,
            [(file, .failed)])) := by
  intro α st session_data records_data p q sOut file
  refine ⟨rfl, rfl, rfl, ?_⟩
  intro hne
  cases records_data with
  | nil => exact absurd rfl hne
  | cons r rest => rfl

/-- Witness for C2: a concrete file with two detail rows whose summary
insert fails is routed to `failed/` with one failure and no success. -/
theorem C2_upload_partial_failure_witness :
    run_files [⟨⟨"a.fit", "d"⟩, 7, [1, 2], .ok, .fail []⟩]
        (⟨[], []⟩ : Store ℕ) =
      (⟨[], [1, 2]⟩, 0, 1, [(⟨"a.fit", "d"⟩, .failed)]) :=
  (C2_upload_partial_failure ℕ ⟨[], []⟩ 7 [1, 2] [] [] .ok
      ⟨"a.fit", "d"⟩).2.2.2 (by decide)

/-- The elements of `extract_records_go`: the record at output position
`i` carries identifier `file_hash ++ "_" ++ iso timestamp ++ "_" ++
toString (seq + i)`. -/
lemma extract_records_go_getElem {τ : Type} (iso : τ → String)
    (file_hash session_id : String) :
    ∀ (msgs : List (RecordMesg τ)) (seq i : ℕ) (r : DetailRecord τ),
      (extract_records_go iso file_hash session_id msgs seq)[i]? = some r →
      r.record_id =
        file_hash ++ "_" ++ iso r.timestamp ++ "_" ++ toString (seq + i) := by
  intro msgs
  induction msgs with
  | nil => intro seq i r h; rw [extract_records_go] at h; simp at h
  | cons data rest ih =>
      intro seq i r h
      rcases ht : data.timestamp with _ | t
      · rw [extract_records_go, ht] at h
        exact ih seq i r h
      · rw [extract_records_go, ht] at h
        cases i with
        | zero =>
            rw [List.getElem?_cons_zero, Option.some_inj] at h
            subst h
            simp
        | succ i =>
            rw [List.getElem?_cons_succ] at h
            have := ih (seq + 1) i r h
            rwa [show seq + 1 + i = seq + (i + 1) by omega] at this

/-- The output timestamps are exactly the present input timestamps, in
order: absent timestamps are dropped, none is fabricated. -/
lemma extract_records_go_timestamps {τ : Type} (iso : τ → String)
    (file_hash session_id : String) :
    ∀ (msgs : List (RecordMesg τ)) (seq : ℕ),
      (extract_records_go iso file_hash session_id msgs seq).map
          (fun r => r.timestamp) =
        msgs.filterMap (fun m => m.timestamp) := by
  intro msgs
  induction msgs with
  | nil => intro seq; rfl
  | cons data rest ih =>
      intro seq
      rcases ht : data.timestamp with _ | t <;>
        rw [extract_records_go, ht] <;>
        simp [List.filterMap_cons, ht, ih]

/-- The identifiers do not depend on the run-specific session id. -/
lemma extract_records_go_ids_stable {τ : Type} (iso : τ → String)
    (file_hash session_id session_id' : String) :
    ∀ (msgs : List (RecordMesg τ)) (seq : ℕ),
      (extract_records_go iso file_hash session_id msgs seq).map
          (fun r => r.record_id) =
        (extract_records_go iso file_hash session_id' msgs seq).map
          (fun r => r.record_id) := by
  intro msgs
  induction msgs with
  | nil => intro seq; rfl
  | cons data rest ih =>
      intro seq
      rcases ht : data.timestamp with _ | t <;>
        rw [extract_records_go, extract_records_go, ht] <;>
        simp [ih]

/-- C8: every detail record's identifier is
`digest ++ "_" ++ isoTimestamp ++ "_" ++ sequenceIndex` where the
sequence index is the record's output position; messages lacking a
timestamp are dropped (output timestamps are exactly the present input
timestamps, in order); and the identifiers are independent of the
run-varying session id, so re-parsing the same decoded messages with
the same digest reproduces them exactly. -/
theorem C8_record_identifiers :
    ∀ (τ : Type) (iso : τ → String) (file_hash session_id : String)
      (msgs : List (RecordMesg τ)),
      (∀ (i : ℕ) (r : DetailRecord τ),
        (extract_records_data iso file_hash session_id msgs)[i]? = some r →
        r.record_id =
          file_hash ++ "_" ++ iso r.timestamp ++ "_" ++ toString i) ∧
      (extract_records_data iso file_hash session_id msgs).map
          (fun r => r.timestamp) =
        msgs.filterMap (fun m => m.timestamp) ∧
      (∀ session_id',
        (extract_records_data iso file_hash session_id msgs).map
            (fun r => r.record_id) =
          (extract_records_data iso file_hash session_id' msgs).map
            (fun r => r.record_id)) := by
  intro τ iso file_hash session_id msgs
  refine ⟨fun i r h => ?_, ?_, fun session_id' => ?_⟩
  · have := extract_records_go_getElem iso file_hash session_id msgs 0 i r h
    simpa using this
  · exact extract_records_go_timestamps iso file_hash session_id msgs 0
  · exact extract_records_go_ids_stable iso file_hash session_id session_id'
      msgs 0

/-- Witness for C8 on three concrete messages (the middle one without a
timestamp): the second output record has sequence index 1 and the
second present timestamp. -/
theorem C8_record_identifiers_witness :
    sampleOutputRecord.record_id =
      "d" ++ "_" ++ id sampleOutputRecord.timestamp ++ "_" ++ toString 1 :=
  (C8_record_identifiers String id "d" "s" sampleRecordMesgs).1 1
    sampleOutputRecord rfl

/-- C9: the CSV row `Timestamp=2024-01-01 00:00:00, Type=Stress Level,
Value=Min : 18 / Max : 48 / Avg : 29`, against the allow-list
`{stress_level_min, stress_level_max, stress_level_avg}`, produces
exactly one record for that timestamp, with those three metric fields
set to the integers 18, 48 and 29 and nothing else beyond the base
fields. -/
theorem C9_csv_composite_splitting :
    ∀ (DT : Type) (strptime : String → Option DT) (created_at : DT)
      (file_hash filename : String),
      parse_metrics_csv strptime created_at
        [⟨"2024-01-01 00:00:00", "Stress Level",
          "Min : 18 / Max : 48 / Avg : 29"⟩]
        file_hash filename
        (some ["stress_level_min", "stress_level_max", "stress_level_avg"]) =
      [[("file_hash", .s file_hash), ("filename", .s filename),
        ("timestamp", tsField strptime "2024-01-01 00:00:00"),
        ("created_at", .dt created_at),
        ("stress_level_min", .i 18), ("stress_level_max", .i 48),
        ("stress_level_avg", .i 29)]] := by
  intro DT strptime created_at file_hash filename
  rfl

/-- C10: the allow-list filter is inert when `allowed_fields` is `None`
or the empty set — nothing is dropped (the whole parse coincides with
the unfiltered parse), and conversely every field assignment leaves its
cleaned column name present in the record. -/
theorem C10_empty_allowlist_bypasses_filter :
    (∀ col, dropField none col = false) ∧
    (∀ col, dropField (some []) col = false) ∧
    (∀ (DT : Type) (strptime : String → Option DT) (created_at : DT)
      (rows : List CsvRow) (file_hash filename : String),
      parse_metrics_csv strptime created_at rows file_hash filename
          (some []) =
        parse_metrics_csv strptime created_at rows file_hash filename none) ∧
    (∀ (DT : Type) (record : List (String × PyVal DT)) (col : String)
      (v : PyVal DT), (dictSet record col v).any (·.1 == col) = true) := by
  refine ⟨fun col => rfl, fun col => rfl, ?_, ?_⟩
  · intro DT strptime created_at rows file_hash filename
    show parseRows strptime created_at (dropField (some [])) rows
        file_hash filename =
      parseRows strptime created_at (dropField none) rows file_hash filename
    rw [show dropField (some []) = dropField none from funext fun col => rfl]
  · intro DT record col v
    rw [dictSet]
    by_cases h : record.any (·.1 == col)
    · rw [if_pos h]
      obtain ⟨x, hx, hbeq⟩ := List.any_eq_true.1 h
      refine List.any_eq_true.2 ⟨(col, v), ?_, by simp⟩
      refine List.mem_map.2 ⟨x, hx, ?_⟩
      rw [if_pos hbeq]
    · rw [if_neg h]
      refine List.any_eq_true.2 ⟨(col, v), ?_, by simp⟩
      simp

end ETL
